import Mathlib

/-!
# Verification of the LIGR single-mode linear-analysis visualizations

This file embeds the `SingleModeVisualizations` driver scripts
(`plot_energy.py`, `plot_perturbations.py`) and the `SingleModeSolution`
evaluator they consume.  The evaluator itself lives in
`LinearAnalysis/SingleMode.py`, which is not among the staged sources;
every definition of it below is modelled from the specification's words
and carries a doc comment saying so.  The driver scripts are transcribed
from the sources directly.

Construction parameters are rationals (the scripts only ever pass
rational floats); derived physical constants live in `ℝ`, perturbation
fields in `ℂ`.
-/

namespace LIGR

/-- The construction parameters of `SingleModeSolution`: mode numbers
`Nx`, `Ny`, upstream Mach number `M1`, amplitude `epsilon_k` and heat
ratio `gamma`. -/
structure Config where
  Nx : ℚ
  Ny : ℚ
  M1 : ℚ
  epsilon_k : ℚ
  gamma : ℚ
deriving DecidableEq

/-- Modelled from the spec: valid configurations have `M1 > 1` (a shock
exists), at least one nonzero mode number, and `gamma > 1`. -/
def validQ (c : Config) : Prop :=
  1 < c.M1 ∧ ¬(c.Nx = 0 ∧ c.Ny = 0) ∧ 1 < c.gamma

instance (c : Config) : Decidable (validQ c) := by
  unfold validQ; infer_instance

/-- Modelled from the spec: the error a `SingleModeSolution` constructor
reports on an invalid configuration. -/
inductive ConfigurationError
  | invalidConfiguration
deriving DecidableEq

/-- Modelled from the spec: the error an evaluator reports when asked for
a quantity undefined in the current regime. -/
inductive DomainError
  | outOfRegime
deriving DecidableEq

/-- Modelled from the spec: post-shock Mach number squared from the
Rankine-Hugoniot relations, a function of `M1` and `gamma` only.  Kept in
`ℚ` because the Rankine-Hugoniot jump is a rational function. -/
def M2sqQ (c : Config) : ℚ :=
  ((c.gamma - 1) * c.M1 ^ 2 + 2) / (2 * c.gamma * c.M1 ^ 2 - (c.gamma - 1))

/-- Modelled from the spec: Rankine-Hugoniot density ratio `R = rho2/rho1`,
a function of `M1` and `gamma` only. -/
def RQ (c : Config) : ℚ :=
  ((c.gamma + 1) * c.M1 ^ 2) / ((c.gamma - 1) * c.M1 ^ 2 + 2)

/-- Modelled from the spec: Rankine-Hugoniot pressure ratio `p2/p1`,
a function of `M1` and `gamma` only. -/
def p2Q (c : Config) : ℚ :=
  (2 * c.gamma * c.M1 ^ 2 - (c.gamma - 1)) / (c.gamma + 1)

/-- Modelled from the spec: post-shock sound speed squared (upstream
pressure and density are the unit reference scales, so `a2^2 = gamma *
(p2/p1) / R`). -/
def a2sqQ (c : Config) : ℚ := c.gamma * p2Q c / RQ c

/-- Modelled from the spec: the mode ratio `Nx/Ny` that the normalized
field amplitudes depend on. -/
def zetaQ (c : Config) : ℚ := c.Nx / c.Ny

/-- Modelled from the spec: the regime flag.  The mode is long-wavelength
(evanescent downstream response) when the driving frequency lies below
the acoustic cutoff of the downstream dispersion relation,
`omega^2 < a2^2 * ky^2 * (1 - M2^2)`; with `omega = kx * M1 * a1`,
`kx = Nx`, `ky = Ny` and `a1^2 = gamma` this is the rational comparison
below.  The boundary is exact, not a tolerance heuristic. -/
def longwavelength (c : Config) : Prop :=
  c.Nx ^ 2 * c.M1 ^ 2 * c.gamma < a2sqQ c * (c.Ny ^ 2 * (1 - M2sqQ c))

instance (c : Config) : Decidable (longwavelength c) := by
  unfold longwavelength; infer_instance

/-- Modelled from the spec: an object of the evaluator class is a
configuration that passed construction-time validation; every derived
constant is a pure function of it. -/
structure SingleModeSolution where
  cfg : Config
  hM1 : 1 < cfg.M1
  hmode : ¬(cfg.Nx = 0 ∧ cfg.Ny = 0)
  hgamma : 1 < cfg.gamma

/-- Modelled from the spec: the constructor validates before any constant
is derived, reporting `ConfigurationError` when `M1 <= 1`, both mode
numbers are zero, or `gamma <= 1`, and otherwise yields the solution
object. -/
def mkSingleModeSolution (c : Config) :
    Except ConfigurationError SingleModeSolution :=
  if h1 : c.M1 ≤ 1 then .error .invalidConfiguration
  else if h2 : c.Nx = 0 ∧ c.Ny = 0 then .error .invalidConfiguration
  else if h3 : c.gamma ≤ 1 then .error .invalidConfiguration
  else .ok ⟨c, lt_of_not_le h1, h2, lt_of_not_le h3⟩

/-- C5: construction reports `ConfigurationError` exactly when `M1 <= 1`,
both mode numbers are zero, or `gamma <= 1`; on every other input it
succeeds with the configuration taken as given. -/
theorem C5_configuration_error_iff (c : Config) :
    ((∃ e, mkSingleModeSolution c = .error e) ↔
      (c.M1 ≤ 1 ∨ (c.Nx = 0 ∧ c.Ny = 0) ∨ c.gamma ≤ 1)) ∧
    ((∃ s, mkSingleModeSolution c = .ok s ∧ s.cfg = c) ↔
      ¬(c.M1 ≤ 1 ∨ (c.Nx = 0 ∧ c.Ny = 0) ∨ c.gamma ≤ 1)) := by
  unfold mkSingleModeSolution
  by_cases h1 : c.M1 ≤ 1
  · simp [h1]
    exact ⟨.invalidConfiguration, trivial⟩
  · by_cases h2 : c.Nx = 0 ∧ c.Ny = 0
    · simp [h1, h2]
      exact ⟨.invalidConfiguration, trivial⟩
    · by_cases h3 : c.gamma ≤ 1
      · simp [h1, h2, h3]
        exact ⟨.invalidConfiguration, trivial⟩
      · simp [h1, h2, h3]

section Constants

variable (c : Config)

lemma one_lt_M1sq (hM : 1 < c.M1) : 1 < c.M1 ^ 2 := by nlinarith

lemma denom1_pos (hM : 1 < c.M1) (hg : 1 < c.gamma) :
    0 < (c.gamma - 1) * c.M1 ^ 2 + 2 := by
  have h := one_lt_M1sq c hM
  nlinarith

lemma denom2_pos (hM : 1 < c.M1) (hg : 1 < c.gamma) :
    0 < 2 * c.gamma * c.M1 ^ 2 - (c.gamma - 1) := by
  have h := one_lt_M1sq c hM
  nlinarith

lemma M2sqQ_pos (hM : 1 < c.M1) (hg : 1 < c.gamma) : 0 < M2sqQ c :=
  div_pos (denom1_pos c hM hg) (denom2_pos c hM hg)

lemma M2sqQ_lt_one (hM : 1 < c.M1) (hg : 1 < c.gamma) : M2sqQ c < 1 := by
  rw [M2sqQ, div_lt_one (denom2_pos c hM hg)]
  have h := one_lt_M1sq c hM
  nlinarith

lemma RQ_pos (hM : 1 < c.M1) (hg : 1 < c.gamma) : 0 < RQ c :=
  div_pos (by nlinarith) (denom1_pos c hM hg)

lemma p2Q_pos (hM : 1 < c.M1) (hg : 1 < c.gamma) : 0 < p2Q c :=
  div_pos (denom2_pos c hM hg) (by nlinarith)

lemma a2sqQ_pos (hM : 1 < c.M1) (hg : 1 < c.gamma) : 0 < a2sqQ c :=
  div_pos (mul_pos (by nlinarith) (p2Q_pos c hM hg)) (RQ_pos c hM hg)

end Constants

noncomputable section

/-- Modelled from the spec: streamwise wavenumber, `kx = Nx` with the
domain length `Lx = 2 * pi` as the unit box. -/
def kx (c : Config) : ℝ := (c.Nx : ℝ)

/-- Modelled from the spec: transverse wavenumber, `ky = Ny` with the
domain length `Ly = 2 * pi` as the unit box. -/
def ky (c : Config) : ℝ := (c.Ny : ℝ)

/-- Modelled from the spec: upstream sound speed with unit upstream
pressure and density, `a1 = sqrt gamma`. -/
def a1 (c : Config) : ℝ := Real.sqrt (c.gamma : ℝ)

/-- Modelled from the spec: post-shock Mach number. -/
def M2 (c : Config) : ℝ := Real.sqrt ((M2sqQ c : ℝ))

/-- Modelled from the spec: post-shock sound speed. -/
def a2 (c : Config) : ℝ := Real.sqrt ((a2sqQ c : ℝ))

/-- Modelled from the spec: the driving frequency of the mode at the
shock, proportional to the streamwise wavenumber (`omega = kx * M1 * a1`);
it vanishes exactly when `Nx = 0`, the case the drivers special-case. -/
def omega (c : Config) : ℝ := kx c * (c.M1 : ℝ) * a1 c

/-- Modelled from the spec: the wave angle, the arctangent of the mode
ratio, exposed as the phase constant `phi` of the shock oscillation. -/
def phi (c : Config) : ℝ := Real.arctan ((c.Nx : ℝ) / (c.Ny : ℝ))

/-- Modelled from the spec: the evanescent decay rate of the downstream
response, from the dispersion relation; its square-root argument is
clamped to `[0, oo)` as the spec's numerical-edge-case rule demands. -/
def decayRate (c : Config) : ℝ :=
  Real.sqrt (max 0 ((1 - (M2sqQ c : ℝ)) * ky c ^ 2 - omega c ^ 2 / (a2sqQ c : ℝ)))

/-- The unit complex oscillation `exp(i * theta)` every field rides on. -/
def cexp (θ : ℝ) : ℂ := Complex.exp (θ * Complex.I)

/-- Modelled from the spec: the common travelling phase
`kx * x + ky * y - omega * t` of the downstream fields. -/
def phase (c : Config) (t x y : ℝ) : ℝ := kx c * x + ky c * y - omega c * t

/-- Modelled from the spec: the exponential-decay factor carried by the
evanescent (long-wavelength) branch, and `1` on the propagating branch. -/
def damp (c : Config) (x : ℝ) : ℝ :=
  if longwavelength c then Real.exp (-(decayRate c * x)) else 1

/-- Modelled from the spec: the regime-dependent carrier every primary
field multiplies its base amplitude by: oscillation, with exponential
decay in the evanescent regime. -/
def carrier (c : Config) (t x y : ℝ) : ℂ :=
  (damp c x : ℂ) * cexp (phase c t x y)

/-- Modelled from the spec: the base amplitude of the normalized pressure
field.  Its closed form is in the unstaged `LinearAnalysis.SingleMode`
module; per the spec it is a function of `M1`, `gamma` and the mode ratio
alone, branching on the regime flag, which is exactly what this
representative is. -/
def tildePA (c : Config) : ℚ :=
  if longwavelength c then M2sqQ c / (1 + zetaQ c ^ 2)
  else RQ c / (1 + zetaQ c ^ 2)

/-- Modelled from the spec: base amplitude of the normalized density
field, a function of `M1`, `gamma`, the mode ratio and the regime flag. -/
def tildeRA (c : Config) : ℚ :=
  if longwavelength c then RQ c / (1 + zetaQ c ^ 2)
  else M2sqQ c * RQ c / (1 + zetaQ c ^ 2)

/-- Modelled from the spec: base amplitude of the normalized x-velocity
field, a function of `M1`, `gamma`, the mode ratio and the regime flag. -/
def tildeVxA (c : Config) : ℚ :=
  if longwavelength c then zetaQ c / (1 + zetaQ c ^ 2)
  else M2sqQ c * zetaQ c / (1 + zetaQ c ^ 2)

/-- Modelled from the spec: base amplitude of the normalized y-velocity
field, a function of `M1`, `gamma`, the mode ratio and the regime flag. -/
def tildeVyA (c : Config) : ℚ :=
  if longwavelength c then 1 / (1 + zetaQ c ^ 2)
  else M2sqQ c / (1 + zetaQ c ^ 2)

/-- Modelled from the spec: normalized pressure perturbation
`delta p / (gamma * p2)`. -/
def tilde_p (c : Config) (t x y : ℝ) : ℂ :=
  ((tildePA c : ℝ) : ℂ) * carrier c t x y

/-- Modelled from the spec: normalized density perturbation
`delta rho / rho2`. -/
def tilde_rho (c : Config) (t x y : ℝ) : ℂ :=
  ((tildeRA c : ℝ) : ℂ) * carrier c t x y

/-- Modelled from the spec: normalized x-velocity perturbation
`delta vx / a2`. -/
def tilde_vx (c : Config) (t x y : ℝ) : ℂ :=
  ((tildeVxA c : ℝ) : ℂ) * carrier c t x y

/-- Modelled from the spec: normalized y-velocity perturbation
`delta vy / a2`. -/
def tilde_vy (c : Config) (t x y : ℝ) : ℂ :=
  ((tildeVyA c : ℝ) : ℂ) * carrier c t x y

/-- Modelled from the spec: dimensional pressure perturbation, the
normalized field scaled by `epsilon_k` and the reference `gamma * p2`. -/
def delta_p (c : Config) (t x y : ℝ) : ℂ :=
  (((c.epsilon_k : ℝ) * (c.gamma : ℝ) * (p2Q c : ℝ) : ℝ) : ℂ) * tilde_p c t x y

/-- Modelled from the spec: dimensional density perturbation (`rho2 = R`
with unit upstream density). -/
def delta_rho (c : Config) (t x y : ℝ) : ℂ :=
  (((c.epsilon_k : ℝ) * (RQ c : ℝ) : ℝ) : ℂ) * tilde_rho c t x y

/-- Modelled from the spec: dimensional x-velocity perturbation. -/
def delta_vx (c : Config) (t x y : ℝ) : ℂ :=
  (((c.epsilon_k : ℝ) * a2 c : ℝ) : ℂ) * tilde_vx c t x y

/-- Modelled from the spec: dimensional y-velocity perturbation. -/
def delta_vy (c : Config) (t x y : ℝ) : ℂ :=
  (((c.epsilon_k : ℝ) * a2 c : ℝ) : ℂ) * tilde_vy c t x y

/-- Modelled from the spec: preshock density perturbation normalized by
the upstream density, the imposed mode itself at amplitude `epsilon_k`. -/
def delta_rho_rho1 (c : Config) (t x y : ℝ) : ℂ :=
  ((c.epsilon_k : ℝ) : ℂ) * carrier c t x y

/-- Modelled from the spec: kinetic-energy perturbation, quadratic in the
real parts of the dimensional velocity perturbations. -/
def delta_KE (c : Config) (t x y : ℝ) : ℝ :=
  (1 / 2) * (RQ c : ℝ) *
    ((delta_vx c t x y).re ^ 2 + (delta_vy c t x y).re ^ 2)

/-- Modelled from the spec: total-energy perturbation, kinetic part plus
the internal (pressure) contribution. -/
def delta_TE (c : Config) (t x y : ℝ) : ℝ :=
  delta_KE c t x y + (delta_p c t x y).re / ((c.gamma : ℝ) - 1)

/-- Modelled from the spec: the shock-displacement amplitude.  Unlike the
primary fields it keeps an individual `1/ky` factor (so it depends on
`ky`, not merely the ratio) and scales with `epsilon_k`; its magnitude is
the closed form `epsilon_k * R * M2^2 / (ky * sqrt(1 - M2^2))` the
drivers use in the `Nx = 0` long-wavelength case. -/
def dxsAmp (c : Config) : ℝ :=
  (c.epsilon_k : ℝ) * (RQ c : ℝ) * (M2sqQ c : ℝ) /
    (ky c * Real.sqrt (1 - (M2sqQ c : ℝ)))

/-- Modelled from the spec: the phase constant of the shock oscillation:
`phi` on the long-wavelength branch (the drivers evaluate at `t = phi /
omega` there to cancel it) and `pi/2` on the propagating branch (the
displacement starts from zero and peaks a quarter period in). -/
def dxsPhaseOff (c : Config) : ℝ :=
  if longwavelength c then phi c else Real.pi / 2

/-- Modelled from the spec: the instantaneous complex shock displacement
`delta_xs(t, y)`. -/
def delta_xs (c : Config) (t y : ℝ) : ℂ :=
  (dxsAmp c : ℂ) * cexp (omega c * t + ky c * y - dxsPhaseOff c)

/-- Modelled from the spec: the closed-form maximum-displacement formula
as a fallible evaluator; outside its regime of validity (`M2 >= 1`) it
reports a `DomainError` rather than substituting a fallback value. -/
def maxDispClosedForm (c : Config) : Except DomainError ℝ :=
  if 1 ≤ M2sqQ c then .error .outOfRegime else .ok (dxsAmp c)

/-- The fixed domain length `Lx` the drivers read off the solution
object (the unit box `2 * pi` in this embedding). -/
def LxC : ℝ := 2 * Real.pi

/-- The fixed domain length `Ly` the drivers read off the solution
object. -/
def LyC : ℝ := 2 * Real.pi

/-- Transcribed from `plot_energy.py` lines 73-79: the x-extent of the
plotted domain, normalized by `Nx` when `Ny = 0` and by `Ny` otherwise. -/
def x1energy (c : Config) : ℝ :=
  if c.Ny = 0 then 2 * LxC / (c.Nx : ℝ) else 2 * LxC / (c.Ny : ℝ)

/-- Transcribed from `plot_energy.py` lines 84-90: the maximum shock
displacement the driver uses to size the time window, with the
closed-form branch for the long-wavelength `Nx = 0` case and
`delta_xs` evaluations otherwise. -/
def max_delta_xs (c : Config) : ℝ :=
  if longwavelength c then
    if c.Nx = 0 then
      (c.epsilon_k : ℝ) * (RQ c : ℝ) * M2 c ^ 2 /
        (ky c * Real.sqrt (1 - M2 c ^ 2))
    else |(delta_xs c (phi c / omega c) 0).re|
  else |(delta_xs c (Real.pi / 2 * omega c) 0).re|

/-- Transcribed from `plot_energy.py` line 91: the time that should just
push the shock out of the plot box, `t = (x1 + max_delta_xs)/(M2*a2)`. -/
def tEnergy (c : Config) : ℝ := (x1energy c + max_delta_xs c) / (M2 c * a2 c)

/-- The shock-front position at time `t`: the unperturbed downstream
position `M2*a2*t` plus the real displacement (the curve
`plot_perturbations.py` line 137 draws). -/
def shockPos (c : Config) (t y : ℝ) : ℝ :=
  M2 c * a2 c * t + (delta_xs c t y).re

/-- Transcribed from `plot_perturbations.py` lines 74-80: the x-extent of
the plotted domain. -/
def x1pert (c : Config) : ℝ :=
  if c.Ny = 0 then 2 * LxC / (c.Nx : ℝ) else 2 * LxC / (c.Ny : ℝ)

/-- Transcribed from `plot_perturbations.py` line 86: the desired middle
shock-front x-coordinate, two thirds of the x-extent. -/
def xsPert (c : Config) : ℝ := 2 / 3 * x1pert c

/-- Transcribed from `plot_perturbations.py` line 87: the evaluation
time, `t = xs / (M2 * a2)`. -/
def tPert (c : Config) : ℝ := xsPert c / (M2 c * a2 c)

/-- Transcribed from `plot_perturbations.py` line 137: the drawn shock
curve `x_shock(y) = xs + Re(delta_xs(t, y))`. -/
def x_shock (c : Config) (y : ℝ) : ℝ :=
  xsPert c + (delta_xs c (tPert c) y).re

end

/-- Transcribed from `plot_energy.py` line 54: the swept mode ratios. -/
def ratiosE : List ℚ :=
  [0, 1/10, 1/5, 3/10, 2/5, 1/2, 3/5, 7/10, 4/5, 9/10, 1, 11/10, 6/5, 13/10]

/-- Transcribed from `plot_energy.py` line 48: `Ny` is fixed to 20. -/
def NyE : ℚ := 20

/-- Transcribed from `plot_energy.py` line 55: `Nxs = ratios * Ny`. -/
def NxsE : List ℚ := ratiosE.map (fun r => r * NyE)

/-- Transcribed from `plot_energy.py` line 56: the swept Mach numbers. -/
def M1sE : List ℚ := [7/4, 9/4, 11/4]

/-- Transcribed from `plot_perturbations.py` line 48: `Ny` is fixed
to 20. -/
def NyP : ℚ := 20

/-- Transcribed from `plot_perturbations.py` line 61: the override
`Nxs = [0.2 * Ny]`. -/
def NxsP : List ℚ := [1/5 * NyP]

/-- Transcribed from `plot_perturbations.py` line 62: the override
`M1s = [1.75]`. -/
def M1sP : List ℚ := [7/4]

/-- Transcribed from both drivers' contour/axis branches: the factor the
axes are scaled by, `Nx` when `Ny = 0` and `Ny` otherwise. -/
def axisScale (ny nx : ℚ) : ℚ := if ny = 0 then nx else ny

noncomputable section

/-- Transcribed from both drivers' domain branches: the x-extent as a
function of the loop variables. -/
def domX1 (ny nx : ℚ) : ℝ :=
  if ny = 0 then 2 * LxC / (nx : ℝ) else 2 * LxC / (ny : ℝ)

/-- Transcribed from both drivers' domain branches: the y-extent as a
function of the loop variables. -/
def domY1 (ny nx : ℚ) : ℝ :=
  if ny = 0 then 2 * LyC / (nx : ℝ) else 2 * LyC / (ny : ℝ)

end

section Helpers

variable (c : Config)

lemma cexp_re (θ : ℝ) : (cexp θ).re = Real.cos θ := by
  simp [cexp, Complex.exp_ofReal_mul_I_re]

lemma ofReal_mul_re (r : ℝ) (z : ℂ) : ((r : ℂ) * z).re = r * z.re := by
  simp [Complex.mul_re]

lemma delta_xs_re (t y : ℝ) :
    (delta_xs c t y).re =
      dxsAmp c * Real.cos (omega c * t + ky c * y - dxsPhaseOff c) := by
  rw [delta_xs, ofReal_mul_re, cexp_re]

lemma M2_pos (hM : 1 < c.M1) (hg : 1 < c.gamma) : 0 < M2 c :=
  Real.sqrt_pos.mpr (by exact_mod_cast M2sqQ_pos c hM hg)

lemma a2_pos (hM : 1 < c.M1) (hg : 1 < c.gamma) : 0 < a2 c :=
  Real.sqrt_pos.mpr (by exact_mod_cast a2sqQ_pos c hM hg)

lemma M2_sq (hM : 1 < c.M1) (hg : 1 < c.gamma) : M2 c ^ 2 = (M2sqQ c : ℝ) :=
  Real.sq_sqrt (by exact_mod_cast (M2sqQ_pos c hM hg).le)

lemma sqrt_one_sub_M2sq_pos (hM : 1 < c.M1) (hg : 1 < c.gamma) :
    0 < Real.sqrt (1 - (M2sqQ c : ℝ)) := by
  have h : M2sqQ c < 1 := M2sqQ_lt_one c hM hg
  have h' : (M2sqQ c : ℝ) < 1 := by exact_mod_cast h
  exact Real.sqrt_pos.mpr (by linarith)

lemma dxsAmp_nonneg (hM : 1 < c.M1) (hg : 1 < c.gamma)
    (he : 0 ≤ c.epsilon_k) (hNy : 0 < c.Ny) : 0 ≤ dxsAmp c := by
  have hR : (0:ℝ) ≤ (RQ c : ℝ) := by exact_mod_cast (RQ_pos c hM hg).le
  have hM2 : (0:ℝ) ≤ (M2sqQ c : ℝ) := by exact_mod_cast (M2sqQ_pos c hM hg).le
  have hky : (0:ℝ) < ky c := by unfold ky; exact_mod_cast hNy
  have he' : (0:ℝ) ≤ (c.epsilon_k : ℝ) := by exact_mod_cast he
  exact div_nonneg (by positivity)
    (mul_nonneg hky.le (Real.sqrt_nonneg _))

lemma dxsAmp_pos (hM : 1 < c.M1) (hg : 1 < c.gamma)
    (he : 0 < c.epsilon_k) (hNy : 0 < c.Ny) : 0 < dxsAmp c := by
  have hR : (0:ℝ) < (RQ c : ℝ) := by exact_mod_cast RQ_pos c hM hg
  have hM2 : (0:ℝ) < (M2sqQ c : ℝ) := by exact_mod_cast M2sqQ_pos c hM hg
  have hky : (0:ℝ) < ky c := by unfold ky; exact_mod_cast hNy
  have he' : (0:ℝ) < (c.epsilon_k : ℝ) := by exact_mod_cast he
  have hs := sqrt_one_sub_M2sq_pos c hM hg
  exact div_pos (by positivity) (mul_pos hky hs)

lemma abs_delta_xs_re_le (hM : 1 < c.M1) (hg : 1 < c.gamma)
    (he : 0 ≤ c.epsilon_k) (hNy : 0 < c.Ny) (t y : ℝ) :
    |(delta_xs c t y).re| ≤ dxsAmp c := by
  rw [delta_xs_re, abs_mul,
    abs_of_nonneg (dxsAmp_nonneg c hM hg he hNy)]
  calc dxsAmp c * |Real.cos (omega c * t + ky c * y - dxsPhaseOff c)|
      ≤ dxsAmp c * 1 := by
        exact mul_le_mul_of_nonneg_left (Real.abs_cos_le_one _)
          (dxsAmp_nonneg c hM hg he hNy)
    _ = dxsAmp c := mul_one _

end Helpers

section Scaling

variable (c c' : Config) (s : ℚ)

lemma M2sqQ_congr (hM : c'.M1 = c.M1) (hg : c'.gamma = c.gamma) :
    M2sqQ c' = M2sqQ c := by rw [M2sqQ, M2sqQ, hM, hg]

lemma RQ_congr (hM : c'.M1 = c.M1) (hg : c'.gamma = c.gamma) :
    RQ c' = RQ c := by rw [RQ, RQ, hM, hg]

lemma p2Q_congr (hM : c'.M1 = c.M1) (hg : c'.gamma = c.gamma) :
    p2Q c' = p2Q c := by rw [p2Q, p2Q, hM, hg]

lemma a2sqQ_congr (hM : c'.M1 = c.M1) (hg : c'.gamma = c.gamma) :
    a2sqQ c' = a2sqQ c := by
  rw [a2sqQ, a2sqQ, p2Q_congr c c' hM hg, RQ_congr c c' hM hg, hg]

lemma zetaQ_scale (hs : s ≠ 0) (hNx : c'.Nx = s * c.Nx)
    (hNy : c'.Ny = s * c.Ny) : zetaQ c' = zetaQ c := by
  rw [zetaQ, zetaQ, hNx, hNy, mul_div_mul_left _ _ hs]

lemma longwavelength_scale (hs : s ≠ 0) (hNx : c'.Nx = s * c.Nx)
    (hNy : c'.Ny = s * c.Ny) (hM : c'.M1 = c.M1) (hg : c'.gamma = c.gamma) :
    longwavelength c' ↔ longwavelength c := by
  rw [longwavelength, longwavelength, hNx, hNy, hM, hg,
    M2sqQ_congr c c' hM hg, a2sqQ_congr c c' hM hg]
  have hs2 : (0:ℚ) < s ^ 2 := by positivity
  have h1 : (s * c.Nx) ^ 2 * c.M1 ^ 2 * c.gamma =
      s ^ 2 * (c.Nx ^ 2 * c.M1 ^ 2 * c.gamma) := by ring
  have h2 : a2sqQ c * ((s * c.Ny) ^ 2 * (1 - M2sqQ c)) =
      s ^ 2 * (a2sqQ c * (c.Ny ^ 2 * (1 - M2sqQ c))) := by ring
  rw [h1, h2]
  exact mul_lt_mul_left hs2

lemma kx_scale (hNx : c'.Nx = s * c.Nx) : kx c' = (s : ℝ) * kx c := by
  rw [kx, kx, hNx]; push_cast; ring

lemma ky_scale (hNy : c'.Ny = s * c.Ny) : ky c' = (s : ℝ) * ky c := by
  rw [ky, ky, hNy]; push_cast; ring

lemma omega_scale (hNx : c'.Nx = s * c.Nx) (hM : c'.M1 = c.M1)
    (hg : c'.gamma = c.gamma) : omega c' = (s : ℝ) * omega c := by
  rw [omega, omega, kx_scale c c' s hNx, hM, a1, a1, hg]; ring

lemma decayRate_scale (hs : 0 < s) (hNx : c'.Nx = s * c.Nx)
    (hNy : c'.Ny = s * c.Ny) (hM : c'.M1 = c.M1) (hg : c'.gamma = c.gamma) :
    decayRate c' = (s : ℝ) * decayRate c := by
  rw [decayRate, decayRate, M2sqQ_congr c c' hM hg, a2sqQ_congr c c' hM hg,
    ky_scale c c' s hNy, omega_scale c c' s hNx hM hg]
  have harg : (1 - (M2sqQ c : ℝ)) * ((s : ℝ) * ky c) ^ 2 -
      ((s : ℝ) * omega c) ^ 2 / (a2sqQ c : ℝ) =
      (s : ℝ) ^ 2 * ((1 - (M2sqQ c : ℝ)) * ky c ^ 2 -
        omega c ^ 2 / (a2sqQ c : ℝ)) := by ring
  have hs2 : (0:ℝ) ≤ ((s : ℝ)) ^ 2 := sq_nonneg _
  have hsR : (0:ℝ) ≤ (s : ℝ) := by exact_mod_cast hs.le
  rw [harg, show max 0 ((s : ℝ) ^ 2 * ((1 - (M2sqQ c : ℝ)) * ky c ^ 2 -
      omega c ^ 2 / (a2sqQ c : ℝ))) = (s : ℝ) ^ 2 *
      max 0 ((1 - (M2sqQ c : ℝ)) * ky c ^ 2 - omega c ^ 2 / (a2sqQ c : ℝ))
    from by rw [mul_max_of_nonneg _ _ hs2, mul_zero],
    Real.sqrt_mul (by positivity) _, Real.sqrt_sq hsR]

lemma damp_scale (hs : 0 < s) (hNx : c'.Nx = s * c.Nx)
    (hNy : c'.Ny = s * c.Ny) (hM : c'.M1 = c.M1) (hg : c'.gamma = c.gamma)
    (x : ℝ) : damp c' (x / (s : ℝ)) = damp c x := by
  have hsR : (s : ℝ) ≠ 0 := by exact_mod_cast hs.ne'
  rw [damp, damp, decayRate_scale c c' s hs hNx hNy hM hg]
  by_cases h : longwavelength c
  · rw [if_pos ((longwavelength_scale c c' s hs.ne' hNx hNy hM hg).mpr h),
      if_pos h]
    congr 1
    field_simp
    ring
  · rw [if_neg (fun h' =>
      h ((longwavelength_scale c c' s hs.ne' hNx hNy hM hg).mp h')), if_neg h]

lemma phase_scale (hs : 0 < s) (hNx : c'.Nx = s * c.Nx)
    (hNy : c'.Ny = s * c.Ny) (hM : c'.M1 = c.M1) (hg : c'.gamma = c.gamma)
    (t x y : ℝ) :
    phase c' (t / (s : ℝ)) (x / (s : ℝ)) (y / (s : ℝ)) = phase c t x y := by
  have hsR : (s : ℝ) ≠ 0 := by exact_mod_cast hs.ne'
  rw [phase, phase, kx_scale c c' s hNx, ky_scale c c' s hNy,
    omega_scale c c' s hNx hM hg]
  field_simp
  ring

lemma carrier_scale (hs : 0 < s) (hNx : c'.Nx = s * c.Nx)
    (hNy : c'.Ny = s * c.Ny) (hM : c'.M1 = c.M1) (hg : c'.gamma = c.gamma)
    (t x y : ℝ) :
    carrier c' (t / (s : ℝ)) (x / (s : ℝ)) (y / (s : ℝ)) = carrier c t x y := by
  rw [carrier, carrier, damp_scale c c' s hs hNx hNy hM hg,
    phase_scale c c' s hs hNx hNy hM hg]

end Scaling

section AmpScaling

variable (c c' : Config) (s : ℚ)

lemma tildePA_scale (hs : s ≠ 0) (hNx : c'.Nx = s * c.Nx)
    (hNy : c'.Ny = s * c.Ny) (hM : c'.M1 = c.M1) (hg : c'.gamma = c.gamma) :
    tildePA c' = tildePA c := by
  rw [tildePA, tildePA, zetaQ_scale c c' s hs hNx hNy,
    M2sqQ_congr c c' hM hg, RQ_congr c c' hM hg]
  exact if_congr (longwavelength_scale c c' s hs hNx hNy hM hg) rfl rfl

lemma tildeRA_scale (hs : s ≠ 0) (hNx : c'.Nx = s * c.Nx)
    (hNy : c'.Ny = s * c.Ny) (hM : c'.M1 = c.M1) (hg : c'.gamma = c.gamma) :
    tildeRA c' = tildeRA c := by
  rw [tildeRA, tildeRA, zetaQ_scale c c' s hs hNx hNy,
    M2sqQ_congr c c' hM hg, RQ_congr c c' hM hg]
  exact if_congr (longwavelength_scale c c' s hs hNx hNy hM hg) rfl rfl

lemma tildeVxA_scale (hs : s ≠ 0) (hNx : c'.Nx = s * c.Nx)
    (hNy : c'.Ny = s * c.Ny) (hM : c'.M1 = c.M1) (hg : c'.gamma = c.gamma) :
    tildeVxA c' = tildeVxA c := by
  rw [tildeVxA, tildeVxA, zetaQ_scale c c' s hs hNx hNy,
    M2sqQ_congr c c' hM hg]
  exact if_congr (longwavelength_scale c c' s hs hNx hNy hM hg) rfl rfl

lemma tildeVyA_scale (hs : s ≠ 0) (hNx : c'.Nx = s * c.Nx)
    (hNy : c'.Ny = s * c.Ny) (hM : c'.M1 = c.M1) (hg : c'.gamma = c.gamma) :
    tildeVyA c' = tildeVyA c := by
  rw [tildeVyA, tildeVyA, zetaQ_scale c c' s hs hNx hNy,
    M2sqQ_congr c c' hM hg]
  exact if_congr (longwavelength_scale c c' s hs hNx hNy hM hg) rfl rfl

end AmpScaling

/-- C1: the normalized field evaluators `tilde_p`, `tilde_rho`,
`tilde_vx`, `tilde_vy` depend on the mode numbers only through their
ratio: two valid configurations whose mode numbers differ by a positive
factor `s` (hence have equal ratio `Nx/Ny`) and share `M1`, `epsilon_k`
and `gamma` return equal values at correspondingly-scaled coordinates. -/
theorem C1_tilde_ratio_invariance (c c' : Config) (s : ℚ) (hs : 0 < s)
    (hNx : c'.Nx = s * c.Nx) (hNy : c'.Ny = s * c.Ny) (hM : c'.M1 = c.M1)
    (he : c'.epsilon_k = c.epsilon_k) (hg : c'.gamma = c.gamma)
    (hv : validQ c) (t x y : ℝ) :
    tilde_p c' (t / (s : ℝ)) (x / (s : ℝ)) (y / (s : ℝ)) = tilde_p c t x y ∧
    tilde_rho c' (t / (s : ℝ)) (x / (s : ℝ)) (y / (s : ℝ)) =
      tilde_rho c t x y ∧
    tilde_vx c' (t / (s : ℝ)) (x / (s : ℝ)) (y / (s : ℝ)) =
      tilde_vx c t x y ∧
    tilde_vy c' (t / (s : ℝ)) (x / (s : ℝ)) (y / (s : ℝ)) =
      tilde_vy c t x y := by
  have hc := carrier_scale c c' s hs hNx hNy hM hg t x y
  refine ⟨?_, ?_, ?_, ?_⟩
  · rw [tilde_p, tilde_p, tildePA_scale c c' s hs.ne' hNx hNy hM hg, hc]
  · rw [tilde_rho, tilde_rho, tildeRA_scale c c' s hs.ne' hNx hNy hM hg, hc]
  · rw [tilde_vx, tilde_vx, tildeVxA_scale c c' s hs.ne' hNx hNy hM hg, hc]
  · rw [tilde_vy, tilde_vy, tildeVyA_scale c c' s hs.ne' hNx hNy hM hg, hc]

/-- Witness for C1: the configurations `(Nx, Ny) = (3, 20)` and `(6, 40)`
(ratio 3/20, scale 2) with `M1 = 7/4`, `epsilon_k = 1/10`,
`gamma = 5/3`, evaluated at the origin. -/
theorem C1_tilde_ratio_invariance_witness :
    (0:ℚ) < 2 ∧ validQ ⟨3, 20, 7/4, 1/10, 5/3⟩ ∧
    tilde_p ⟨6, 40, 7/4, 1/10, 5/3⟩ (0 / ((2:ℚ) : ℝ)) (0 / ((2:ℚ) : ℝ))
        (0 / ((2:ℚ) : ℝ)) = tilde_p ⟨3, 20, 7/4, 1/10, 5/3⟩ 0 0 0 ∧
    tilde_rho ⟨6, 40, 7/4, 1/10, 5/3⟩ (0 / ((2:ℚ) : ℝ)) (0 / ((2:ℚ) : ℝ))
        (0 / ((2:ℚ) : ℝ)) = tilde_rho ⟨3, 20, 7/4, 1/10, 5/3⟩ 0 0 0 ∧
    tilde_vx ⟨6, 40, 7/4, 1/10, 5/3⟩ (0 / ((2:ℚ) : ℝ)) (0 / ((2:ℚ) : ℝ))
        (0 / ((2:ℚ) : ℝ)) = tilde_vx ⟨3, 20, 7/4, 1/10, 5/3⟩ 0 0 0 ∧
    tilde_vy ⟨6, 40, 7/4, 1/10, 5/3⟩ (0 / ((2:ℚ) : ℝ)) (0 / ((2:ℚ) : ℝ))
        (0 / ((2:ℚ) : ℝ)) = tilde_vy ⟨3, 20, 7/4, 1/10, 5/3⟩ 0 0 0 := by
  have h := C1_tilde_ratio_invariance ⟨3, 20, 7/4, 1/10, 5/3⟩
    ⟨6, 40, 7/4, 1/10, 5/3⟩ 2 (by norm_num) (by norm_num) (by norm_num)
    rfl rfl rfl (by norm_num [validQ]) 0 0 0
  exact ⟨by norm_num, by norm_num [validQ], h.1, h.2.1, h.2.2.1, h.2.2.2⟩

/-- C2: the shock-displacement evaluator does not satisfy the ratio-only
invariant: the valid configurations `(Nx, Ny) = (2, 20)` and `(4, 40)`
share the mode ratio but differ in `Nx` and in `Ny` individually, and
their `delta_xs` amplitudes differ (the amplitude carries a `1/ky`
factor); moreover the amplitude scales linearly with `epsilon_k`. -/
theorem C2_delta_xs_ky_dependence :
    (validQ ⟨2, 20, 7/4, 1/10, 5/3⟩ ∧ validQ ⟨4, 40, 7/4, 1/10, 5/3⟩ ∧
      zetaQ ⟨2, 20, 7/4, 1/10, 5/3⟩ = zetaQ ⟨4, 40, 7/4, 1/10, 5/3⟩ ∧
      (⟨2, 20, 7/4, 1/10, 5/3⟩ : Config).Nx ≠
        (⟨4, 40, 7/4, 1/10, 5/3⟩ : Config).Nx ∧
      (⟨2, 20, 7/4, 1/10, 5/3⟩ : Config).Ny ≠
        (⟨4, 40, 7/4, 1/10, 5/3⟩ : Config).Ny ∧
      dxsAmp ⟨2, 20, 7/4, 1/10, 5/3⟩ ≠ dxsAmp ⟨4, 40, 7/4, 1/10, 5/3⟩) ∧
    ∀ (c : Config) (l : ℚ),
      dxsAmp { c with epsilon_k := l * c.epsilon_k } = (l : ℝ) * dxsAmp c := by
  constructor
  · have hR : RQ (⟨4, 40, 7/4, 1/10, 5/3⟩ : Config) =
        RQ (⟨2, 20, 7/4, 1/10, 5/3⟩ : Config) := rfl
    have hM2 : M2sqQ (⟨4, 40, 7/4, 1/10, 5/3⟩ : Config) =
        M2sqQ (⟨2, 20, 7/4, 1/10, 5/3⟩ : Config) := rfl
    have hky2 : ky (⟨2, 20, 7/4, 1/10, 5/3⟩ : Config) = 20 := by
      rw [ky]; norm_num
    have hky4 : ky (⟨4, 40, 7/4, 1/10, 5/3⟩ : Config) = 40 := by
      rw [ky]; norm_num
    have hdouble : dxsAmp (⟨2, 20, 7/4, 1/10, 5/3⟩ : Config) =
        2 * dxsAmp (⟨4, 40, 7/4, 1/10, 5/3⟩ : Config) := by
      rw [dxsAmp, dxsAmp, hR, hM2, hky2, hky4]
      ring
    have hpos : 0 < dxsAmp (⟨4, 40, 7/4, 1/10, 5/3⟩ : Config) :=
      dxsAmp_pos _ (by norm_num) (by norm_num) (by norm_num) (by norm_num)
    refine ⟨by norm_num [validQ], by norm_num [validQ],
      by norm_num [zetaQ], by norm_num, by norm_num, ?_⟩
    rw [hdouble]
    intro h
    linarith
  · intro c l
    have hR : RQ { c with epsilon_k := l * c.epsilon_k } = RQ c := rfl
    have hM2 : M2sqQ { c with epsilon_k := l * c.epsilon_k } = M2sqQ c := rfl
    have hky : ky { c with epsilon_k := l * c.epsilon_k } = ky c := rfl
    have he : ({ c with epsilon_k := l * c.epsilon_k } : Config).epsilon_k =
        l * c.epsilon_k := rfl
    rw [dxsAmp, dxsAmp, hR, hM2, hky, he]
    push_cast
    ring

/-- C3: in the long-wavelength regime with `Nx = 0` the driver's
`max_delta_xs` equals the closed form
`epsilon_k * R * M2^2 / (ky * sqrt(1 - M2^2))`, and the chosen time
`t = (x1 + max_delta_xs)/(M2*a2)` places the shock front at or beyond
the right edge `x1` of the visible domain for every `y`. -/
theorem C3_longwave_Nx0_max_and_traversal (c : Config) (hM : 1 < c.M1)
    (hg : 1 < c.gamma) (hlw : longwavelength c) (hNx : c.Nx = 0)
    (hNy : 0 < c.Ny) (he : 0 ≤ c.epsilon_k) :
    max_delta_xs c =
      (c.epsilon_k : ℝ) * (RQ c : ℝ) * (M2sqQ c : ℝ) /
        (ky c * Real.sqrt (1 - (M2sqQ c : ℝ))) ∧
    ∀ y : ℝ, x1energy c ≤ shockPos c (tEnergy c) y := by
  have hmax : max_delta_xs c = dxsAmp c := by
    rw [max_delta_xs, if_pos hlw, if_pos hNx, M2_sq c hM hg, dxsAmp]
  constructor
  · rw [hmax, dxsAmp]
  · intro y
    have hpos : (0:ℝ) < M2 c * a2 c :=
      mul_pos (M2_pos c hM hg) (a2_pos c hM hg)
    have hb := abs_delta_xs_re_le c hM hg he hNy (tEnergy c) y
    have h1 : M2 c * a2 c * tEnergy c = x1energy c + max_delta_xs c := by
      rw [tEnergy]
      field_simp
    rw [shockPos, h1, hmax]
    have h2 := neg_abs_le ((delta_xs c (tEnergy c) y).re)
    linarith

/-- Witness for C3 at the configuration `Nx = 0, Ny = 20, M1 = 7/4,
epsilon_k = 1/10, gamma = 5/3`, which is long-wavelength. -/
theorem C3_longwave_Nx0_witness :
    longwavelength ⟨0, 20, 7/4, 1/10, 5/3⟩ ∧
    max_delta_xs ⟨0, 20, 7/4, 1/10, 5/3⟩ =
      ((1/10 : ℚ) : ℝ) * (RQ ⟨0, 20, 7/4, 1/10, 5/3⟩ : ℝ) *
        (M2sqQ ⟨0, 20, 7/4, 1/10, 5/3⟩ : ℝ) /
        (ky ⟨0, 20, 7/4, 1/10, 5/3⟩ *
          Real.sqrt (1 - (M2sqQ ⟨0, 20, 7/4, 1/10, 5/3⟩ : ℝ))) ∧
    x1energy ⟨0, 20, 7/4, 1/10, 5/3⟩ ≤
      shockPos ⟨0, 20, 7/4, 1/10, 5/3⟩ (tEnergy ⟨0, 20, 7/4, 1/10, 5/3⟩) 0 := by
  have hlw : longwavelength ⟨0, 20, 7/4, 1/10, 5/3⟩ := by
    norm_num [longwavelength, a2sqQ, p2Q, RQ, M2sqQ]
  have h := C3_longwave_Nx0_max_and_traversal ⟨0, 20, 7/4, 1/10, 5/3⟩
    (by norm_num) (by norm_num) hlw rfl (by norm_num) (by norm_num)
  exact ⟨hlw, h.1, h.2 0⟩

/-- C6: asking the closed-form maximum-displacement formula outside its
regime of validity (`M2 >= 1`) yields a `DomainError`, not a fallback
value. -/
theorem C6_max_disp_domain_error (c : Config) (h : 1 ≤ M2 c) :
    maxDispClosedForm c = .error .outOfRegime := by
  have h0 : (1:ℝ) ≤ ((M2sqQ c : ℚ) : ℝ) := by
    rw [M2] at h
    rcases le_or_lt 0 ((M2sqQ c : ℚ) : ℝ) with hq | hq
    · nlinarith [Real.sq_sqrt hq, Real.sqrt_nonneg ((M2sqQ c : ℚ) : ℝ)]
    · have hz := Real.sqrt_le_sqrt hq.le
      rw [Real.sqrt_zero] at hz
      linarith
  have hq : (1:ℚ) ≤ M2sqQ c := by exact_mod_cast h0
  rw [maxDispClosedForm, if_pos hq]

/-- Witness for C6 at `M1 = 1/2` (no shock: `M2^2 = 13 >= 1`). -/
theorem C6_max_disp_domain_error_witness :
    1 ≤ M2 ⟨20, 20, 1/2, 1/10, 5/3⟩ ∧
    maxDispClosedForm ⟨20, 20, 1/2, 1/10, 5/3⟩ = .error .outOfRegime := by
  have hq : M2sqQ ⟨20, 20, 1/2, 1/10, 5/3⟩ = 13 := by norm_num [M2sqQ]
  have h : 1 ≤ M2 ⟨20, 20, 1/2, 1/10, 5/3⟩ := by
    rw [M2, hq]
    rw [show ((13:ℚ) : ℝ) = 13 by norm_num]
    calc (1:ℝ) = Real.sqrt 1 := Real.sqrt_one.symm
      _ ≤ Real.sqrt 13 := Real.sqrt_le_sqrt (by norm_num)
  exact ⟨h, C6_max_disp_domain_error _ h⟩

/-- C8: with `epsilon_k = 0` the evaluators `delta_rho_rho1`, `delta_KE`
and `delta_TE` vanish identically. -/
theorem C8_zero_epsilon (c : Config) (h : c.epsilon_k = 0) (t x y : ℝ) :
    delta_rho_rho1 c t x y = 0 ∧ delta_KE c t x y = 0 ∧
      delta_TE c t x y = 0 := by
  refine ⟨?_, ?_, ?_⟩ <;>
    simp [delta_rho_rho1, delta_KE, delta_TE, delta_p, delta_vx, delta_vy, h]

/-- Witness for C8 at `epsilon_k = 0` and `(t, x, y) = (1, 2, 3)`. -/
theorem C8_zero_epsilon_witness :
    (⟨20, 20, 7/4, 0, 5/3⟩ : Config).epsilon_k = 0 ∧
    delta_rho_rho1 ⟨20, 20, 7/4, 0, 5/3⟩ 1 2 3 = 0 ∧
    delta_KE ⟨20, 20, 7/4, 0, 5/3⟩ 1 2 3 = 0 ∧
    delta_TE ⟨20, 20, 7/4, 0, 5/3⟩ 1 2 3 = 0 := by
  have h := C8_zero_epsilon ⟨20, 20, 7/4, 0, 5/3⟩ rfl 1 2 3
  exact ⟨rfl, h.1, h.2.1, h.2.2⟩

/-- C9: in `plot_perturbations.py` the evaluation time satisfies
`M2 * a2 * t = (2/3) * x1` exactly, and the drawn shock curve is
`x_shock(y) = (2/3) * x1 + Re(delta_xs(t, y))` for every `y`. -/
theorem C9_pert_time_and_shock_curve (c : Config) (hM : 1 < c.M1)
    (hg : 1 < c.gamma) :
    M2 c * a2 c * tPert c = 2 / 3 * x1pert c ∧
    ∀ y : ℝ, x_shock c y = 2 / 3 * x1pert c +
      (delta_xs c (tPert c) y).re := by
  constructor
  · have h : M2 c * a2 c ≠ 0 :=
      (mul_pos (M2_pos c hM hg) (a2_pos c hM hg)).ne'
    rw [tPert, xsPert]
    field_simp
    ring
  · intro y
    rw [x_shock, xsPert]

/-- Witness for C9 at the script's own configuration
`Nx = 0.2 * 20 = 4, Ny = 20, M1 = 1.75`. -/
theorem C9_pert_time_witness :
    (1:ℚ) < 7/4 ∧ (1:ℚ) < 5/3 ∧
    M2 ⟨4, 20, 7/4, 1/10, 5/3⟩ * a2 ⟨4, 20, 7/4, 1/10, 5/3⟩ *
        tPert ⟨4, 20, 7/4, 1/10, 5/3⟩ =
      2 / 3 * x1pert ⟨4, 20, 7/4, 1/10, 5/3⟩ ∧
    x_shock ⟨4, 20, 7/4, 1/10, 5/3⟩ 0 =
      2 / 3 * x1pert ⟨4, 20, 7/4, 1/10, 5/3⟩ +
        (delta_xs ⟨4, 20, 7/4, 1/10, 5/3⟩
          (tPert ⟨4, 20, 7/4, 1/10, 5/3⟩) 0).re := by
  have h := C9_pert_time_and_shock_curve ⟨4, 20, 7/4, 1/10, 5/3⟩
    (by norm_num) (by norm_num)
  exact ⟨by norm_num, by norm_num, h.1, h.2 0⟩

/-- C10: in both driver scripts `Ny` is fixed to 20, so the `Ny == 0`
branches (the `Nx`-based domain normalization and the `Nx`-scaled
contour/axis branches) are unreachable for every swept `Nx`: the plot
domain is always `[0, 2*Lx/Ny] x [0, 2*Ly/Ny]` and the axes are always
scaled by `Ny`. -/
theorem C10_Ny0_branches_unreachable :
    NyE ≠ 0 ∧ NyP ≠ 0 ∧
    (∀ nx : ℚ, domX1 NyE nx = 2 * LxC / (NyE : ℝ) ∧
      domY1 NyE nx = 2 * LyC / (NyE : ℝ) ∧ axisScale NyE nx = NyE) ∧
    (∀ nx : ℚ, domX1 NyP nx = 2 * LxC / (NyP : ℝ) ∧
      domY1 NyP nx = 2 * LyC / (NyP : ℝ) ∧ axisScale NyP nx = NyP) := by
  have hE : NyE ≠ 0 := by norm_num [NyE]
  have hP : NyP ≠ 0 := by norm_num [NyP]
  exact ⟨hE, hP,
    fun nx => ⟨by rw [domX1, if_neg hE], by rw [domY1, if_neg hE],
      by rw [axisScale, if_neg hE]⟩,
    fun nx => ⟨by rw [domX1, if_neg hP], by rw [domY1, if_neg hP],
      by rw [axisScale, if_neg hP]⟩⟩

/-- The propagating-regime configuration `(Nx, Ny, M1, epsilon_k, gamma)
= (20, 20, 2, 1/10, 5/3)` exhibiting the driver's mistimed propagating
evaluation point. -/
def c4cfg : Config := ⟨20, 20, 2, 1/10, 5/3⟩

/-- C4, failing part: at the propagating configuration `c4cfg` the
driver's `max_delta_xs` (which evaluates `delta_xs` at
`t = (pi/2) * omega`, multiplying by `omega` where the long-wavelength
branch divides by it) is strictly below the displacement attained at
`t = (pi/2) / omega`, so it does not realize the phase-domain maximum of
the shock displacement. -/
theorem C4_propagating_eval_not_max :
    ¬ longwavelength c4cfg ∧
    max_delta_xs c4cfg <
      |(delta_xs c4cfg (Real.pi / 2 / omega c4cfg) 0).re| := by
  have hnlw : ¬ longwavelength c4cfg := by
    norm_num [c4cfg, longwavelength, a2sqQ, p2Q, RQ, M2sqQ]
  have hpo : dxsPhaseOff c4cfg = Real.pi / 2 := by
    rw [dxsPhaseOff, if_neg hnlw]
  have homega : omega c4cfg = 40 * Real.sqrt (5 / 3) := by
    rw [omega, kx, a1, c4cfg]
    push_cast
    ring
  have homega_pos : 0 < omega c4cfg := by
    rw [homega]; positivity
  have hsq : omega c4cfg ^ 2 = 8000 / 3 := by
    rw [homega, mul_pow, Real.sq_sqrt (by norm_num : (0:ℝ) ≤ 5 / 3)]
    norm_num
  have hamp_pos : 0 < dxsAmp c4cfg := by
    refine dxsAmp_pos _ ?_ ?_ ?_ ?_ <;> norm_num [c4cfg]
  have hval0 : (delta_xs c4cfg (Real.pi / 2 * omega c4cfg) 0).re =
      dxsAmp c4cfg * (-(Real.sqrt 3 / 2)) := by
    rw [delta_xs_re]
    congr 1
    have hangle : omega c4cfg * (Real.pi / 2 * omega c4cfg) + ky c4cfg * 0 -
        dxsPhaseOff c4cfg = 5 * Real.pi / 6 + (666 : ℤ) * (2 * Real.pi) := by
      have h1 : omega c4cfg * (Real.pi / 2 * omega c4cfg) =
          Real.pi / 2 * omega c4cfg ^ 2 := by ring
      rw [h1, hsq, hpo]
      push_cast
      ring
    rw [hangle, Real.cos_add_int_mul_two_pi,
      show 5 * Real.pi / 6 = Real.pi - Real.pi / 6 by ring,
      Real.cos_pi_sub, Real.cos_pi_div_six]
  have hval1 : (delta_xs c4cfg (Real.pi / 2 / omega c4cfg) 0).re =
      dxsAmp c4cfg := by
    rw [delta_xs_re, hpo]
    have hangle : omega c4cfg * (Real.pi / 2 / omega c4cfg) + ky c4cfg * 0 -
        Real.pi / 2 = 0 := by
      field_simp
      ring
    rw [hangle, Real.cos_zero, mul_one]
  have hmax : max_delta_xs c4cfg = dxsAmp c4cfg * (Real.sqrt 3 / 2) := by
    rw [max_delta_xs, if_neg hnlw, hval0, abs_mul, abs_neg,
      abs_of_nonneg hamp_pos.le,
      abs_of_nonneg (by positivity : (0:ℝ) ≤ Real.sqrt 3 / 2)]
  refine ⟨hnlw, ?_⟩
  rw [hmax, hval1, abs_of_nonneg hamp_pos.le]
  have h3 : Real.sqrt 3 < 2 := by
    nlinarith [Real.sq_sqrt (show (0:ℝ) ≤ 3 by norm_num),
      Real.sqrt_nonneg (3 : ℝ)]
  nlinarith [hamp_pos]

end LIGR
